import Mathlib

/-!
# Pin gallery view-model: a shallow embedding of `src/App.jsx`

The React component state is modelled by explicit records, every event handler
by a function from the state before the event to the state after it.  Calls
made to the outside world (`addDoc`, `showNotification`, `setTimeout`) are
recorded in the state so that their number and arguments can be stated.

JavaScript strings are modelled by `String`.  `String.prototype.trim` and
`String.prototype.includes` are modelled directly; `toLowerCase`, whose result
depends on the Unicode case tables, is taken as a parameter.
-/

namespace PinApp

/-! ## String built-ins used by the source -/

/-- The code points that `String.prototype.trim` strips: ECMAScript `WhiteSpace`
(TAB, VT, FF, ZWNBSP and the Unicode space separators) and `LineTerminator`
(LF, CR, LS, PS). -/
def isTrimChar (c : Char) : Bool :=
  let n := c.toNat
  n == 0x0009 || n == 0x000A || n == 0x000B || n == 0x000C || n == 0x000D ||
  n == 0x0020 || n == 0x00A0 || n == 0x1680 || (0x2000 ≤ n && n ≤ 0x200A) ||
  n == 0x2028 || n == 0x2029 || n == 0x202F || n == 0x205F || n == 0x3000 ||
  n == 0xFEFF

/-- The method `s.trim()`: strip the trim characters from both ends. -/
def trim (s : String) : String :=
  ⟨(s.data.dropWhile isTrimChar).rdropWhile isTrimChar⟩

/-- The method `s.includes(t)`: `t` occurs in `s` as a contiguous run. -/
def includes (s t : String) : Bool :=
  decide (t.data <:+: s.data)

/-- The expression `a || d` on an optional string: `d` when `a` is absent
(`null`/`undefined`) or the empty string, `a` otherwise. -/
def orElse (a : Option String) (d : String) : String :=
  match a with
  | none => d
  | some v => if v = "" then d else v

/-! ## Upload modal (`UploadModal.handleUpload`, lines 62-107) -/

/-- The identity object handed out by the auth provider (fields read by the source). -/
structure User where
  uid : String
  displayName : Option String
  photoURL : Option String
  email : Option String
  deriving DecidableEq, Repr

/-- A timestamp field as written by the client: the `serverTimestamp()` token or
a concrete time. -/
inductive TimeField where
  | serverTimestamp : TimeField
  | seconds : Int → TimeField
  deriving DecidableEq, Repr

/-- The object literal passed to `addDoc` (lines 88-95). -/
structure PinRecord where
  title : String
  imageUrl : String
  userId : String
  userName : String
  userPhoto : String
  createdAt : TimeField
  deriving DecidableEq, Repr

/-- A toast: the two arguments of `showNotification`. -/
structure Notification where
  message : String
  type : String
  deriving DecidableEq, Repr

/-- One recorded call `addDoc(collection(db, path), record)`. -/
structure AddDocCall where
  path : String
  record : PinRecord
  deriving DecidableEq, Repr

/-- The state `handleUpload` reads and writes: the four `useState` cells of the
modal, the owner's `showUploadModal` cell (written through `setShowModal`), and
the calls made so far to `showNotification` and to `addDoc`. -/
structure UploadState where
  title : String
  imageUrl : String
  error : String
  isUploading : Bool
  showModal : Bool
  notifyCalls : List Notification
  storeCalls : List AddDocCall
  deriving DecidableEq, Repr

/-- The store's answer to an insert: a document id, or a thrown error. -/
abbrev AddDoc := String → PinRecord → Except String String

/-- Line 74: inline message for a blank title or image link. -/
def fieldValidationError : String := "الرجاء ملء كل من العنوان ورابط الصورة."

/-- Line 78: inline message for a missing identity. -/
def notAuthenticatedError : String := "يجب عليك تسجيل الدخول أولاً."

/-- Line 102: inline message after a failed write. -/
def writeFailedError : String := "حدث خطأ أثناء تحميل الصورة. الرجاء المحاولة مرة أخرى."

/-- Line 92: label stored when the author has no display name. -/
def anonymousLabel : String := "مستخدم مجهول"

/-- Line 99: the success toast. -/
def uploadSuccessNotification : Notification := ⟨"تم إضافة Pin بنجاح!", "success"⟩

/-- Line 103: the failure toast. -/
def uploadErrorNotification : Notification :=
  ⟨"فشل إضافة Pin. الرجاء المحاولة مرة أخرى.", "error"⟩

/-- Lines 87 and 273: the collection every user reads and writes. -/
def pinsCollectionPath (appId : String) : String :=
  "/artifacts/" ++ appId ++ "/public/data/pins"

/-- The record built at lines 88-95 from the form fields and the identity. -/
def newPinRecord (title imageUrl : String) (user : User) : PinRecord :=
  { title := title
    imageUrl := imageUrl
    userId := user.uid
    userName := orElse user.displayName anonymousLabel
    userPhoto := orElse user.photoURL ""
    createdAt := TimeField.serverTimestamp }

/-- The handler `handleUpload` (lines 70-107), run to completion against a store
that answers `addDoc`. -/
def handleUpload (appId : String) (addDoc : AddDoc) (user : Option User)
    (s : UploadState) : UploadState :=
  if trim s.title = "" ∨ trim s.imageUrl = "" then
    { s with error := fieldValidationError }
  else
    match user with
    | none => { s with error := notAuthenticatedError }
    | some u =>
      let s1 := { s with isUploading := true, error := "" }
      let path := pinsCollectionPath appId
      let record := newPinRecord s.title s.imageUrl u
      let s2 := { s1 with storeCalls := s1.storeCalls ++ [AddDocCall.mk path record] }
      let s3 :=
        match addDoc path record with
        | Except.ok _ =>
          { s2 with
            showModal := false
            title := ""
            imageUrl := ""
            notifyCalls := s2.notifyCalls ++ [uploadSuccessNotification] }
        | Except.error _ =>
          { s2 with
            error := writeFailedError
            notifyCalls := s2.notifyCalls ++ [uploadErrorNotification] }
      { s3 with isUploading := false }

/-- The modal as first opened with the given field contents. -/
def openModal (title imageUrl : String) : UploadState :=
  { title := title, imageUrl := imageUrl, error := "", isUploading := false,
    showModal := true, notifyCalls := [], storeCalls := [] }

/-- A store that accepts every write. -/
def acceptingStore : AddDoc := fun _ _ => Except.ok "doc1"

/-- A store that rejects every write. -/
def failingStore : AddDoc := fun _ _ => Except.error "unavailable"

/-! ## Feed, search and notifications (`App`, lines 201-325) -/

/-- A stored creation time, as delivered in a snapshot. -/
structure Timestamp where
  seconds : Int
  nanoseconds : Int
  deriving DecidableEq, Repr

/-- The fields of a stored pin document (`doc.data()`).  `createdAt` is absent
while the server has not yet assigned it. -/
structure PinData where
  title : String
  imageUrl : String
  userId : String
  userName : String
  userPhoto : String
  createdAt : Option Timestamp
  deriving DecidableEq, Repr

/-- A document of a query snapshot. -/
structure Doc where
  id : String
  data : PinData
  deriving DecidableEq, Repr

/-- An element of the `pins` state: `{ id: doc.id, ...doc.data() }`. -/
structure Pin where
  id : String
  title : String
  imageUrl : String
  userId : String
  userName : String
  userPhoto : String
  createdAt : Option Timestamp
  deriving DecidableEq, Repr

/-- Line 280: the object pushed for one document. -/
def Doc.toPin (d : Doc) : Pin :=
  { id := d.id
    title := d.data.title
    imageUrl := d.data.imageUrl
    userId := d.data.userId
    userName := d.data.userName
    userPhoto := d.data.userPhoto
    createdAt := d.data.createdAt }

/-- The expression `pin.createdAt?.seconds || 0` of line 283. -/
def createdSeconds (pin : Pin) : Int :=
  match pin.createdAt with
  | none => 0
  | some t => if t.seconds = 0 then 0 else t.seconds

/-- The creation timestamp of a pin at full resolution, in nanoseconds since the
epoch, a missing timestamp counting as 0: the order of creation dates. -/
def createdInstant (pin : Pin) : Int :=
  match pin.createdAt with
  | none => 0
  | some t => t.seconds * 1000000000 + t.nanoseconds

/-- The comparator of line 283: `(a, b) => secondsOf(b) - secondsOf(a)`. -/
def compareNewestFirst (a b : Pin) : Int :=
  createdSeconds b - createdSeconds a

/-- The method `Array.prototype.sort(cmp)`: a stable sort that puts `a` before
`b` when `cmp(a, b) < 0` and keeps their order when `cmp(a, b) = 0`.  Computed
by stable insertion (the element inserted comes from further left and is placed
before the first element it does not have to follow). -/
def jsSort {α : Type} (cmp : α → α → Int) (l : List α) : List α :=
  l.insertionSort (fun a b => cmp a b ≤ 0)

/-- The `useState` cells of `App` (lines 202-207), together with the clock and
the deadlines of the `setTimeout` callbacks that are still pending. -/
structure AppState where
  user : Option User
  pins : List Pin
  loading : Bool
  showUploadModal : Bool
  searchTerm : String
  notification : Option Notification
  now : Nat
  timers : List Nat
  deriving DecidableEq, Repr

/-- The state on mount. -/
def AppState.initial : AppState :=
  { user := none, pins := [], loading := true, showUploadModal := false,
    searchTerm := "", notification := none, now := 0, timers := [] }

/-- The delay passed to `setTimeout` on line 215, in milliseconds. -/
def dismissDelay : Nat := 3000

/-- The callback `showNotification` (lines 210-216): store the toast and
schedule a callback `dismissDelay` from now. -/
def showNotification (message type : String) (s : AppState) : AppState :=
  { s with
    notification := some ⟨message, type⟩
    timers := s.timers ++ [s.now + dismissDelay] }

/-- The scheduled callback of lines 213-215: `setNotification(null)`. -/
def timerCallback (s : AppState) : AppState :=
  { s with notification := none }

/-- The `onClose` handler of line 423: `setNotification(null)`. -/
def closeNotification (s : AppState) : AppState :=
  { s with notification := none }

/-- Let `ms` milliseconds pass with no other event: every pending callback whose
deadline is reached runs, and is no longer pending. -/
def advance (ms : Nat) (s : AppState) : AppState :=
  let t := s.now + ms
  let due := s.timers.filter (fun d => decide (d ≤ t))
  let s1 := due.foldl (fun acc _ => timerCallback acc) s
  { s1 with now := t, timers := s.timers.filter (fun d => decide (t < d)) }

/-- The events that touch the notification cell. -/
inductive NotifyEvent where
  | notify : String → String → NotifyEvent
  | close : NotifyEvent
  | wait : Nat → NotifyEvent
  deriving DecidableEq, Repr

/-- The effect of one event. -/
def NotifyEvent.apply (e : NotifyEvent) (s : AppState) : AppState :=
  match e with
  | NotifyEvent.notify m k => showNotification m k s
  | NotifyEvent.close => closeNotification s
  | NotifyEvent.wait ms => advance ms s

/-- Run a history of events, oldest first. -/
def runEvents (es : List NotifyEvent) (s : AppState) : AppState :=
  es.foldl (fun acc e => e.apply acc) s

/-- Whether the event is a call of `showNotification`. -/
def NotifyEvent.isNotify (e : NotifyEvent) : Bool :=
  match e with
  | NotifyEvent.notify _ _ => true
  | _ => false

/-- The time that passes during a history: the sum of its waits. -/
def elapsed (es : List NotifyEvent) : Nat :=
  match es with
  | [] => 0
  | NotifyEvent.wait ms :: rest => ms + elapsed rest
  | _ :: rest => elapsed rest

/-- The invariant of the notification cell: a displayed toast has a callback
pending, and every pending deadline lies ahead, at most `dismissDelay` away. -/
def NotifyInv (s : AppState) : Prop :=
  (s.notification ≠ none → s.timers ≠ []) ∧
  ∀ d ∈ s.timers, s.now < d ∧ d ≤ s.now + dismissDelay

/-- The success callback given to `onSnapshot` (lines 277-285): rebuild the list
from the snapshot, sort it, and store it. -/
def onSnapshotNext (docs : List Doc) (s : AppState) : AppState :=
  let pinsData := docs.map Doc.toPin
  { s with pins := jsSort compareNewestFirst pinsData }

/-- Deliver a sequence of snapshots, oldest first. -/
def runSnapshots (snaps : List (List Doc)) (s : AppState) : AppState :=
  snaps.foldl (fun acc docs => onSnapshotNext docs acc) s

/-- The predicate of lines 323-325 for one pin. -/
def matchesSearch (toLowerCase : String → String) (searchTerm : String) (pin : Pin) : Bool :=
  includes (toLowerCase pin.title) (toLowerCase searchTerm)

/-- The derived list `filteredPins` (lines 323-325). -/
def filteredPins (toLowerCase : String → String) (pins : List Pin) (searchTerm : String) :
    List Pin :=
  pins.filter (fun pin => matchesSearch toLowerCase searchTerm pin)

/-- Lower-casing of the ASCII letters only; one admissible `toLowerCase` on
ASCII text, used to evaluate examples. -/
def asciiLower (s : String) : String :=
  ⟨s.data.map Char.toLower⟩

/-- Whether the event is a mere passage of time. -/
def NotifyEvent.isWait (e : NotifyEvent) : Bool :=
  match e with
  | NotifyEvent.wait _ => true
  | _ => false

/-! ## Session (`App`, lines 219-262 and 327-339) -/

/-- The answer of the identity provider to a silent sign-in: resolved, or a
thrown error. -/
abbrev SignIn := Except String Unit

/-- The session part of `App`: its state cells, whether the callback given to
`onAuthStateChanged` is subscribed, and the lines written to the console. -/
structure Session where
  app : AppState
  observerAttached : Bool
  console : List String
  deriving DecidableEq, Repr

/-- The session on mount, before the effect of line 219 has run. -/
def Session.initial : Session :=
  { app := AppState.initial, observerAttached := false, console := [] }

/-- The function `handleInitialAuth` (lines 220-246), run to completion:
`initialAuthToken` is the global `__initial_auth_token` (absent when undefined),
the two sign-in arguments are the provider's answers.  The `try` signs in with
the token when it is defined and non-empty and anonymously otherwise, the
`catch` logs, the `finally` subscribes the observer. -/
def handleInitialAuth (initialAuthToken : Option String)
    (signInWithCustomToken : String → SignIn) (signInAnonymously : SignIn)
    (s : Session) : Session :=
  let attempt : Except String String :=
    match initialAuthToken with
    | some token =>
      if token ≠ "" then
        match signInWithCustomToken token with
        | Except.ok _ => Except.ok "Signed in with custom token provided by Canvas."
        | Except.error err => Except.error err
      else
        match signInAnonymously with
        | Except.ok _ => Except.ok "Signed in anonymously."
        | Except.error err => Except.error err
    | none =>
      match signInAnonymously with
      | Except.ok _ => Except.ok "Signed in anonymously."
      | Except.error err => Except.error err
  let s1 :=
    match attempt with
    | Except.ok line => { s with console := s.console ++ [line] }
    | Except.error err =>
      { s with console := s.console ++ ["Initial authentication failed: " ++ err] }
  { s1 with observerAttached := true }

/-- The callback given to `onAuthStateChanged` (lines 238-242). -/
def authObserver (currentUser : Option User) (s : Session) : Session :=
  { s with
    app := { s.app with user := currentUser, loading := false }
    console := s.console ++
      ["Auth state changed. Current user: " ++
        (match currentUser with
         | some u => u.uid
         | none => "No user")] }

/-- The provider reports the identity `currentUser`: the callback runs when it
is subscribed. -/
def authStateChanged (currentUser : Option User) (s : Session) : Session :=
  if s.observerAttached then authObserver currentUser s else s

/-- The three things `App` can return. -/
inductive View where
  | loading : View
  | login : View
  | main : View
  deriving DecidableEq, Repr

/-- The choice of lines 328-342: the spinner while `loading`, the login screen
when there is no user, the main interface otherwise. -/
def selectView (s : AppState) : View :=
  if s.loading then View.loading
  else
    match s.user with
    | none => View.login
    | some _ => View.main

/-- A provider whose token sign-in always throws. -/
def rejectingTokenSignIn : String → SignIn := fun _ => Except.error "auth/invalid-custom-token"

/-- A provider whose anonymous sign-in throws. -/
def rejectingAnonymousSignIn : SignIn := Except.error "auth/operation-not-allowed"

/-! ## Theorems: the upload handler -/

/-- C1: whatever the identity, when the title or the image link is blank after
trimming, `handleUpload` sets the inline field-validation error, makes no call
to `addDoc`, emits no notification and leaves the modal (and everything else)
as it was. -/
theorem handleUpload_blank_field (appId : String) (addDoc : AddDoc) (user : Option User)
    (s : UploadState) (h : trim s.title = "" ∨ trim s.imageUrl = "") :
    handleUpload appId addDoc user s = { s with error := fieldValidationError } ∧
    (handleUpload appId addDoc user s).error = fieldValidationError ∧
    (handleUpload appId addDoc user s).storeCalls = s.storeCalls ∧
    (handleUpload appId addDoc user s).notifyCalls = s.notifyCalls ∧
    (handleUpload appId addDoc user s).showModal = s.showModal := by
  have e : handleUpload appId addDoc user s = { s with error := fieldValidationError } := by
    unfold handleUpload
    rw [if_pos h]
  rw [e]
  exact ⟨rfl, rfl, rfl, rfl, rfl⟩

/-- C1, evaluated: a title of blanks with a signed-in user and an accepting
store gives the validation error, zero inserts, zero notifications, modal open. -/
theorem handleUpload_blank_field_witness :
    (trim (openModal " \t" "https://x/1.jpg").title = "" ∨
      trim (openModal " \t" "https://x/1.jpg").imageUrl = "") ∧
    (handleUpload "app" acceptingStore (some ⟨"u1", some "Ada", none, none⟩)
        (openModal " \t" "https://x/1.jpg")).error = fieldValidationError ∧
    (handleUpload "app" acceptingStore (some ⟨"u1", some "Ada", none, none⟩)
        (openModal " \t" "https://x/1.jpg")).storeCalls = [] ∧
    (handleUpload "app" acceptingStore (some ⟨"u1", some "Ada", none, none⟩)
        (openModal " \t" "https://x/1.jpg")).notifyCalls = [] ∧
    (handleUpload "app" acceptingStore (some ⟨"u1", some "Ada", none, none⟩)
        (openModal " \t" "https://x/1.jpg")).showModal = true :=
  have h : trim (openModal " \t" "https://x/1.jpg").title = "" ∨
      trim (openModal " \t" "https://x/1.jpg").imageUrl = "" := Or.inl (by decide)
  have t := handleUpload_blank_field "app" acceptingStore
    (some ⟨"u1", some "Ada", none, none⟩) (openModal " \t" "https://x/1.jpg") h
  ⟨h, t.2.1, t.2.2.1, t.2.2.2.1, t.2.2.2.2⟩

/-- C2: with both fields non-blank after trimming and no identity,
`handleUpload` sets the not-authenticated error, which differs from the
field-validation error, and makes no call to `addDoc`. -/
theorem handleUpload_no_user (appId : String) (addDoc : AddDoc) (s : UploadState)
    (ht : trim s.title ≠ "") (hi : trim s.imageUrl ≠ "") :
    handleUpload appId addDoc none s = { s with error := notAuthenticatedError } ∧
    (handleUpload appId addDoc none s).error = notAuthenticatedError ∧
    notAuthenticatedError ≠ fieldValidationError ∧
    (handleUpload appId addDoc none s).storeCalls = s.storeCalls := by
  have hn : ¬ (trim s.title = "" ∨ trim s.imageUrl = "") := by
    rintro (h | h)
    · exact ht h
    · exact hi h
  have e : handleUpload appId addDoc none s = { s with error := notAuthenticatedError } := by
    unfold handleUpload
    rw [if_neg hn]
  rw [e]
  exact ⟨rfl, rfl, by decide, rfl⟩

/-- C2, evaluated: "Sunset" with its link and no identity, against an accepting
store, gives the not-authenticated error and zero inserts. -/
theorem handleUpload_no_user_witness :
    trim (openModal "Sunset" "https://x/1.jpg").title ≠ "" ∧
    trim (openModal "Sunset" "https://x/1.jpg").imageUrl ≠ "" ∧
    (handleUpload "app" acceptingStore none
        (openModal "Sunset" "https://x/1.jpg")).error = notAuthenticatedError ∧
    (handleUpload "app" acceptingStore none
        (openModal "Sunset" "https://x/1.jpg")).storeCalls = [] :=
  have ht : trim (openModal "Sunset" "https://x/1.jpg").title ≠ "" := by decide
  have hi : trim (openModal "Sunset" "https://x/1.jpg").imageUrl ≠ "" := by decide
  have t := handleUpload_no_user "app" acceptingStore (openModal "Sunset" "https://x/1.jpg") ht hi
  ⟨ht, hi, t.2.1, t.2.2.2⟩

/-- C3: with both fields non-blank, an identity `u` present and the store
accepting the write, `handleUpload` makes exactly one call to `addDoc`, on the
path `/artifacts/<appId>/public/data/pins`, with the entered title and link,
`u.uid`, the display name or the label "مستخدم مجهول" when it is absent or
empty, the photo link or the empty string when it is absent, and the
server-timestamp token; it then closes the modal, resets the uploading flag and
emits exactly one notification, the success toast of line 99. -/
theorem handleUpload_success (appId : String) (addDoc : AddDoc) (u : User) (s : UploadState)
    (docId : String) (ht : trim s.title ≠ "") (hi : trim s.imageUrl ≠ "")
    (hok : addDoc ("/artifacts/" ++ appId ++ "/public/data/pins")
      { title := s.title
        imageUrl := s.imageUrl
        userId := u.uid
        userName := orElse u.displayName "مستخدم مجهول"
        userPhoto := orElse u.photoURL ""
        createdAt := TimeField.serverTimestamp }
      = Except.ok docId) :
    ∃ r : PinRecord,
      (handleUpload appId addDoc (some u) s).storeCalls
        = s.storeCalls ++ [AddDocCall.mk ("/artifacts/" ++ appId ++ "/public/data/pins") r] ∧
      r.title = s.title ∧ r.imageUrl = s.imageUrl ∧ r.userId = u.uid ∧
      (∀ n, u.displayName = some n → n ≠ "" → r.userName = n) ∧
      (u.displayName = none ∨ u.displayName = some "" → r.userName = "مستخدم مجهول") ∧
      (∀ ph, u.photoURL = some ph → r.userPhoto = ph) ∧
      (u.photoURL = none → r.userPhoto = "") ∧
      r.createdAt = TimeField.serverTimestamp ∧
      (handleUpload appId addDoc (some u) s).showModal = false ∧
      (handleUpload appId addDoc (some u) s).isUploading = false ∧
      (handleUpload appId addDoc (some u) s).notifyCalls
        = s.notifyCalls ++ [Notification.mk "تم إضافة Pin بنجاح!" "success"] := by
  have hn : ¬ (trim s.title = "" ∨ trim s.imageUrl = "") := by
    rintro (h | h)
    · exact ht h
    · exact hi h
  have hok2 : addDoc (pinsCollectionPath appId) (newPinRecord s.title s.imageUrl u)
      = Except.ok docId := hok
  have hcalls : (handleUpload appId addDoc (some u) s).storeCalls
      = s.storeCalls ++ [AddDocCall.mk (pinsCollectionPath appId)
          (newPinRecord s.title s.imageUrl u)] := by
    simp only [handleUpload, if_neg hn, hok2]
  have hnote : (handleUpload appId addDoc (some u) s).notifyCalls
      = s.notifyCalls ++ [uploadSuccessNotification] := by
    simp only [handleUpload, if_neg hn, hok2]
  refine ⟨newPinRecord s.title s.imageUrl u, hcalls, rfl, rfl, rfl, ?_, ?_, ?_, ?_, rfl,
    ?_, ?_, hnote⟩
  · intro n hd hne
    simp [newPinRecord, orElse, hd, hne]
  · rintro (hd | hd) <;> simp [newPinRecord, orElse, hd, anonymousLabel]
  · intro ph hp
    by_cases hph : ph = "" <;> simp [newPinRecord, orElse, hp, hph]
  · intro hp
    simp [newPinRecord, orElse, hp]
  · simp only [handleUpload, if_neg hn, hok2]
  · simp only [handleUpload, if_neg hn, hok2]

/-- C3, evaluated twice.  The scenario of the specification: "Sunset" submitted
by `u1` named Ada inserts exactly the expected record on
`/artifacts/app/public/data/pins`, closes the modal and emits the success toast.
The fallbacks: "Harbour" submitted by `u2`, who has a photo but no display name,
is stored under the label "مستخدم مجهول" with that photo. -/
theorem handleUpload_success_witness :
    (∃ r : PinRecord,
      (handleUpload "app" acceptingStore (some ⟨"u1", some "Ada", none, none⟩)
          (openModal "Sunset" "https://x/1.jpg")).storeCalls
        = [AddDocCall.mk "/artifacts/app/public/data/pins" r] ∧
      r.title = "Sunset" ∧ r.imageUrl = "https://x/1.jpg" ∧ r.userId = "u1" ∧
      r.userName = "Ada" ∧ r.userPhoto = "" ∧ r.createdAt = TimeField.serverTimestamp) ∧
    (handleUpload "app" acceptingStore (some ⟨"u1", some "Ada", none, none⟩)
        (openModal "Sunset" "https://x/1.jpg")).showModal = false ∧
    (handleUpload "app" acceptingStore (some ⟨"u1", some "Ada", none, none⟩)
        (openModal "Sunset" "https://x/1.jpg")).notifyCalls
      = [Notification.mk "تم إضافة Pin بنجاح!" "success"] ∧
    (∃ r : PinRecord,
      (handleUpload "app" acceptingStore
          (some ⟨"u2", none, some "https://x/a.png", none⟩)
          (openModal "Harbour" "https://x/2.jpg")).storeCalls
        = [AddDocCall.mk "/artifacts/app/public/data/pins" r] ∧
      r.title = "Harbour" ∧ r.imageUrl = "https://x/2.jpg" ∧ r.userId = "u2" ∧
      r.userName = "مستخدم مجهول" ∧ r.userPhoto = "https://x/a.png" ∧
      r.createdAt = TimeField.serverTimestamp) :=
  have ht : trim (openModal "Sunset" "https://x/1.jpg").title ≠ "" := by decide
  have hi : trim (openModal "Sunset" "https://x/1.jpg").imageUrl ≠ "" := by decide
  have ht2 : trim (openModal "Harbour" "https://x/2.jpg").title ≠ "" := by decide
  have hi2 : trim (openModal "Harbour" "https://x/2.jpg").imageUrl ≠ "" := by decide
  match handleUpload_success "app" acceptingStore ⟨"u1", some "Ada", none, none⟩
      (openModal "Sunset" "https://x/1.jpg") "doc1" ht hi rfl,
    handleUpload_success "app" acceptingStore ⟨"u2", none, some "https://x/a.png", none⟩
      (openModal "Harbour" "https://x/2.jpg") "doc1" ht2 hi2 rfl with
  | ⟨r, hc, h1, h2, h3, h4, _, _, h7, h8, h9, _, h11⟩,
    ⟨r2, kc, k1, k2, k3, _, k5, k6, _, k8, _, _, _⟩ =>
    ⟨⟨r, hc, h1, h2, h3, h4 "Ada" rfl (by decide), h7 rfl, h8⟩, h9, h11,
     ⟨r2, kc, k1, k2, k3, k5 (Or.inl rfl), k6 "https://x/a.png" rfl, k8⟩⟩

/-- C4: with both fields non-blank, an identity present and the store throwing,
`handleUpload` makes exactly one call to `addDoc` (no retry), emits exactly one
notification, of type error, leaves the modal open and the title and link as
entered, and resets the uploading flag. -/
theorem handleUpload_write_failed (appId : String) (addDoc : AddDoc) (u : User)
    (s : UploadState) (err : String) (ht : trim s.title ≠ "") (hi : trim s.imageUrl ≠ "")
    (hfail : addDoc (pinsCollectionPath appId) (newPinRecord s.title s.imageUrl u)
      = Except.error err) :
    (handleUpload appId addDoc (some u) s).notifyCalls
      = s.notifyCalls ++ [uploadErrorNotification] ∧
    uploadErrorNotification.type = "error" ∧
    (handleUpload appId addDoc (some u) s).showModal = s.showModal ∧
    (handleUpload appId addDoc (some u) s).title = s.title ∧
    (handleUpload appId addDoc (some u) s).imageUrl = s.imageUrl ∧
    (handleUpload appId addDoc (some u) s).isUploading = false ∧
    (handleUpload appId addDoc (some u) s).storeCalls
      = s.storeCalls ++ [AddDocCall.mk (pinsCollectionPath appId)
          (newPinRecord s.title s.imageUrl u)] ∧
    (handleUpload appId addDoc (some u) s).storeCalls.length = s.storeCalls.length + 1 := by
  have hn : ¬ (trim s.title = "" ∨ trim s.imageUrl = "") := by
    rintro (h | h)
    · exact ht h
    · exact hi h
  refine ⟨?_, rfl, ?_, ?_, ?_, ?_, ?_, ?_⟩ <;>
    simp only [handleUpload, if_neg hn, hfail, List.length_append, List.length_singleton]

/-- C4, evaluated: "Sunset" submitted by `u1` against a store that rejects the
write leaves the form filled in, the modal open, one error notification and one
attempted insert. -/
theorem handleUpload_write_failed_witness :
    (handleUpload "app" failingStore (some ⟨"u1", some "Ada", none, none⟩)
        (openModal "Sunset" "https://x/1.jpg")).notifyCalls = [uploadErrorNotification] ∧
    (handleUpload "app" failingStore (some ⟨"u1", some "Ada", none, none⟩)
        (openModal "Sunset" "https://x/1.jpg")).showModal = true ∧
    (handleUpload "app" failingStore (some ⟨"u1", some "Ada", none, none⟩)
        (openModal "Sunset" "https://x/1.jpg")).title = "Sunset" ∧
    (handleUpload "app" failingStore (some ⟨"u1", some "Ada", none, none⟩)
        (openModal "Sunset" "https://x/1.jpg")).imageUrl = "https://x/1.jpg" ∧
    (handleUpload "app" failingStore (some ⟨"u1", some "Ada", none, none⟩)
        (openModal "Sunset" "https://x/1.jpg")).isUploading = false ∧
    (handleUpload "app" failingStore (some ⟨"u1", some "Ada", none, none⟩)
        (openModal "Sunset" "https://x/1.jpg")).storeCalls.length = 1 :=
  have ht : trim (openModal "Sunset" "https://x/1.jpg").title ≠ "" := by decide
  have hi : trim (openModal "Sunset" "https://x/1.jpg").imageUrl ≠ "" := by decide
  have t := handleUpload_write_failed "app" failingStore ⟨"u1", some "Ada", none, none⟩
    (openModal "Sunset" "https://x/1.jpg") "unavailable" ht hi rfl
  ⟨t.1, t.2.2.1, t.2.2.2.1, t.2.2.2.2.1, t.2.2.2.2.2.1, t.2.2.2.2.2.2.2⟩

/-! ## Theorems: the search filter -/

/-- The predicate of the filter holds exactly when the lower-cased title
contains the lower-cased query as a contiguous run. -/
theorem matchesSearch_iff (toLowerCase : String → String) (q : String) (pin : Pin) :
    matchesSearch toLowerCase q pin = true ↔
      (toLowerCase q).data <:+: (toLowerCase pin.title).data := by
  simp [matchesSearch, includes]

/-- C5: for every lower-casing function, pin list and query, `filteredPins` is a
sublist of the pins (same elements, same order); a pin is in it exactly when it
is in the input and its lower-cased title contains the lower-cased query; every
matching pin is kept as often as it occurs; and it is the only sublist of
matching pins with that property.  The input is a value and is left as it is. -/
theorem filteredPins_exact (toLowerCase : String → String) (pins : List Pin) (q : String) :
    List.Sublist (filteredPins toLowerCase pins q) pins ∧
    (∀ pin, pin ∈ filteredPins toLowerCase pins q ↔
      pin ∈ pins ∧ (toLowerCase q).data <:+: (toLowerCase pin.title).data) ∧
    (∀ pin, (toLowerCase q).data <:+: (toLowerCase pin.title).data →
      (filteredPins toLowerCase pins q).count pin = pins.count pin) ∧
    (∀ r : List Pin, List.Sublist r pins →
      (∀ pin ∈ r, (toLowerCase q).data <:+: (toLowerCase pin.title).data) →
      (∀ pin, (toLowerCase q).data <:+: (toLowerCase pin.title).data →
        pins.count pin ≤ r.count pin) →
      r = filteredPins toLowerCase pins q) := by
  refine ⟨List.filter_sublist pins, ?_, ?_, ?_⟩
  · intro pin
    simp only [filteredPins, List.mem_filter, matchesSearch_iff]
  · intro pin hpin
    exact List.count_filter ((matchesSearch_iff toLowerCase q pin).mpr hpin)
  · intro r hs hm hc
    have hall : ∀ pin ∈ r, matchesSearch toLowerCase q pin = true :=
      fun pin hp => (matchesSearch_iff toLowerCase q pin).mpr (hm pin hp)
    have h1 : List.Sublist r (filteredPins toLowerCase pins q) := by
      have h2 := hs.filter (fun pin => matchesSearch toLowerCase q pin)
      rwa [List.filter_eq_self.mpr hall] at h2
    refine h1.eq_of_length_le ?_
    apply List.Subperm.length_le
    rw [List.subperm_ext_iff]
    intro pin hp
    have hp2 := (List.mem_filter.mp hp).2
    have hc2 := hc pin ((matchesSearch_iff toLowerCase q pin).mp hp2)
    have hc3 : (filteredPins toLowerCase pins q).count pin = pins.count pin :=
      List.count_filter hp2
    omega

/-- C5, evaluated: of the titles Sunset, Harbour, sunrise the query "SUN" keeps
the first and the third, in that order. -/
theorem filteredPins_exact_witness :
    filteredPins asciiLower
        [⟨"p1", "Sunset", "https://x/1.jpg", "u1", "Ada", "", none⟩,
         ⟨"p2", "Harbour", "https://x/2.jpg", "u1", "Ada", "", some ⟨5, 0⟩⟩,
         ⟨"p3", "sunrise", "https://x/3.jpg", "u2", "Bob", "", none⟩] "SUN"
      = [⟨"p1", "Sunset", "https://x/1.jpg", "u1", "Ada", "", none⟩,
         ⟨"p3", "sunrise", "https://x/3.jpg", "u2", "Bob", "", none⟩] ∧
    List.Sublist
      (filteredPins asciiLower
        [⟨"p1", "Sunset", "https://x/1.jpg", "u1", "Ada", "", none⟩,
         ⟨"p2", "Harbour", "https://x/2.jpg", "u1", "Ada", "", some ⟨5, 0⟩⟩,
         ⟨"p3", "sunrise", "https://x/3.jpg", "u2", "Bob", "", none⟩] "SUN")
      [⟨"p1", "Sunset", "https://x/1.jpg", "u1", "Ada", "", none⟩,
       ⟨"p2", "Harbour", "https://x/2.jpg", "u1", "Ada", "", some ⟨5, 0⟩⟩,
       ⟨"p3", "sunrise", "https://x/3.jpg", "u2", "Bob", "", none⟩] :=
  ⟨by decide, (filteredPins_exact asciiLower _ "SUN").1⟩

/-- C6: for every lower-casing function that sends the empty string to itself
(as `toLowerCase` does), the filter with the empty query returns the pin list
itself. -/
theorem filteredPins_empty_query (toLowerCase : String → String) (pins : List Pin)
    (h : toLowerCase "" = "") :
    filteredPins toLowerCase pins "" = pins := by
  unfold filteredPins
  rw [List.filter_eq_self]
  intro pin _
  rw [matchesSearch_iff, h]
  exact List.nil_infix

/-- C6, evaluated: two pins, empty query, ASCII lower-casing. -/
theorem filteredPins_empty_query_witness :
    asciiLower "" = "" ∧
    filteredPins asciiLower
        [⟨"p1", "Sunset", "https://x/1.jpg", "u1", "Ada", "", none⟩,
         ⟨"p2", "Harbour", "https://x/2.jpg", "u1", "Ada", "", some ⟨5, 0⟩⟩] ""
      = [⟨"p1", "Sunset", "https://x/1.jpg", "u1", "Ada", "", none⟩,
         ⟨"p2", "Harbour", "https://x/2.jpg", "u1", "Ada", "", some ⟨5, 0⟩⟩] :=
  ⟨rfl, filteredPins_empty_query asciiLower _ rfl⟩

/-- C7: the filter is idempotent: filtering its own result with the same query
changes nothing. -/
theorem filteredPins_idempotent (toLowerCase : String → String) (pins : List Pin)
    (q : String) :
    filteredPins toLowerCase (filteredPins toLowerCase pins q) q
      = filteredPins toLowerCase pins q := by
  unfold filteredPins
  rw [List.filter_filter]
  congr 1
  funext pin
  exact Bool.and_self _

/-- C7, evaluated: filtering the titles Sunset, Harbour by "sun" twice gives the
one pin that filtering once gives. -/
theorem filteredPins_idempotent_witness :
    filteredPins asciiLower
        [⟨"p1", "Sunset", "https://x/1.jpg", "u1", "Ada", "", none⟩,
         ⟨"p2", "Harbour", "https://x/2.jpg", "u1", "Ada", "", some ⟨5, 0⟩⟩] "sun"
      = [⟨"p1", "Sunset", "https://x/1.jpg", "u1", "Ada", "", none⟩] ∧
    filteredPins asciiLower
        (filteredPins asciiLower
          [⟨"p1", "Sunset", "https://x/1.jpg", "u1", "Ada", "", none⟩,
           ⟨"p2", "Harbour", "https://x/2.jpg", "u1", "Ada", "", some ⟨5, 0⟩⟩] "sun") "sun"
      = filteredPins asciiLower
          [⟨"p1", "Sunset", "https://x/1.jpg", "u1", "Ada", "", none⟩,
           ⟨"p2", "Harbour", "https://x/2.jpg", "u1", "Ada", "", some ⟨5, 0⟩⟩] "sun" :=
  ⟨by decide, filteredPins_idempotent asciiLower _ "sun"⟩

/-! ## Theorems: the feed order -/

/-- The order used by the sort puts `a` before `b` exactly when `a` is at least
as new as `b`. -/
theorem compareNewestFirst_nonpos_iff (a b : Pin) :
    compareNewestFirst a b ≤ 0 ↔ createdSeconds b ≤ createdSeconds a := by
  unfold compareNewestFirst
  omega

/-- A sorted list for the comparator is non-increasing in creation seconds. -/
theorem jsSort_compareNewestFirst_sorted (l : List Pin) :
    (jsSort compareNewestFirst l).Pairwise
      (fun a b => createdSeconds b ≤ createdSeconds a) := by
  haveI : IsTotal Pin (fun a b => compareNewestFirst a b ≤ 0) :=
    ⟨fun a b => by simp only [compareNewestFirst_nonpos_iff]; omega⟩
  haveI : IsTrans Pin (fun a b => compareNewestFirst a b ≤ 0) :=
    ⟨fun a b c => by simp only [compareNewestFirst_nonpos_iff]; omega⟩
  have h := List.sorted_insertionSort (fun a b : Pin => compareNewestFirst a b ≤ 0) l
  exact List.Pairwise.imp (fun {a b} hab => (compareNewestFirst_nonpos_iff a b).mp hab) h

/-- After a run of snapshots ending with `docs`, the pins are those of `docs`,
sorted. -/
theorem runSnapshots_append_last (snaps : List (List Doc)) (docs : List Doc) (s : AppState) :
    (runSnapshots (snaps ++ [docs]) s).pins
      = jsSort compareNewestFirst (docs.map Doc.toPin) := by
  simp [runSnapshots, onSnapshotNext]

/-- Feed order by whole seconds: after any sequence of snapshots whose most
recent one is `docs`, from any state, the pin list is a permutation of the pins
of `docs`; it is non-increasing in creation seconds (missing counted as 0),
pairwise and hence between adjacent pins; it is the same list whatever the earlier snapshots and the earlier state
were; and for every search term the filtered list is a sublist of it, in the
same non-increasing order. -/
theorem feed_sorted_latest_snapshot (toLowerCase : String → String)
    (snaps : List (List Doc)) (docs : List Doc) (s : AppState) (q : String) :
    List.Perm (runSnapshots (snaps ++ [docs]) s).pins (docs.map Doc.toPin) ∧
    (runSnapshots (snaps ++ [docs]) s).pins.Pairwise
      (fun a b => createdSeconds b ≤ createdSeconds a) ∧
    (runSnapshots (snaps ++ [docs]) s).pins.Chain'
      (fun a b => createdSeconds b ≤ createdSeconds a) ∧
    (∀ (snaps2 : List (List Doc)) (s2 : AppState),
      (runSnapshots (snaps2 ++ [docs]) s2).pins = (runSnapshots (snaps ++ [docs]) s).pins) ∧
    List.Sublist (filteredPins toLowerCase (runSnapshots (snaps ++ [docs]) s).pins q)
      (runSnapshots (snaps ++ [docs]) s).pins ∧
    (filteredPins toLowerCase (runSnapshots (snaps ++ [docs]) s).pins q).Pairwise
      (fun a b => createdSeconds b ≤ createdSeconds a) ∧
    (filteredPins toLowerCase (runSnapshots (snaps ++ [docs]) s).pins q).Chain'
      (fun a b => createdSeconds b ≤ createdSeconds a) := by
  have hs := jsSort_compareNewestFirst_sorted (docs.map Doc.toPin)
  have hf : List.Sublist
      (filteredPins toLowerCase (jsSort compareNewestFirst (docs.map Doc.toPin)) q)
      (jsSort compareNewestFirst (docs.map Doc.toPin)) := List.filter_sublist _
  simp only [runSnapshots_append_last]
  refine ⟨?_, hs, List.Pairwise.chain' hs, ?_, hf, hs.sublist hf,
    List.Pairwise.chain' (hs.sublist hf)⟩
  · exact List.perm_insertionSort _ _
  · intro _ _
    trivial

/-- Feed order by whole seconds, evaluated: a first snapshot of one pin, then a
snapshot of three; the
stored list is that of the second snapshot, newest first. -/
theorem feed_sorted_latest_snapshot_witness :
    (runSnapshots
        ([[⟨"p0", ⟨"Old", "https://x/0.jpg", "u1", "Ada", "", some ⟨9, 0⟩⟩⟩]] ++
         [[⟨"p1", ⟨"Sunset", "https://x/1.jpg", "u1", "Ada", "", some ⟨3, 0⟩⟩⟩,
           ⟨"p2", ⟨"Harbour", "https://x/2.jpg", "u1", "Ada", "", some ⟨5, 0⟩⟩⟩,
           ⟨"p3", ⟨"Forest", "https://x/3.jpg", "u2", "Bob", "", none⟩⟩]])
        AppState.initial).pins
      = [⟨"p2", "Harbour", "https://x/2.jpg", "u1", "Ada", "", some ⟨5, 0⟩⟩,
         ⟨"p1", "Sunset", "https://x/1.jpg", "u1", "Ada", "", some ⟨3, 0⟩⟩,
         ⟨"p3", "Forest", "https://x/3.jpg", "u2", "Bob", "", none⟩] ∧
    (runSnapshots
        ([[⟨"p0", ⟨"Old", "https://x/0.jpg", "u1", "Ada", "", some ⟨9, 0⟩⟩⟩]] ++
         [[⟨"p1", ⟨"Sunset", "https://x/1.jpg", "u1", "Ada", "", some ⟨3, 0⟩⟩⟩,
           ⟨"p2", ⟨"Harbour", "https://x/2.jpg", "u1", "Ada", "", some ⟨5, 0⟩⟩⟩,
           ⟨"p3", ⟨"Forest", "https://x/3.jpg", "u2", "Bob", "", none⟩⟩]])
        AppState.initial).pins.Pairwise
      (fun a b => createdSeconds b ≤ createdSeconds a) :=
  ⟨by decide, (feed_sorted_latest_snapshot asciiLower _ _ AppState.initial "").2.1⟩

/-- C8: the code does not meet the claim for two pins created in the same
second.  A snapshot delivers `x` (5 s + 100 ns) before `y` (5 s + 900 ns); the
comparator of line 283 reads only the seconds, returns 0, and the stored list is
`x, y`: the older pin stands before the newer one, so the list is not in
descending order of creation timestamp. -/
theorem feed_same_second_older_first :
    (onSnapshotNext
        [⟨"x", ⟨"Dawn", "https://x/1.jpg", "u1", "Ada", "", some ⟨5, 100⟩⟩⟩,
         ⟨"y", ⟨"Dusk", "https://x/2.jpg", "u1", "Ada", "", some ⟨5, 900⟩⟩⟩]
        AppState.initial).pins
      = [⟨"x", "Dawn", "https://x/1.jpg", "u1", "Ada", "", some ⟨5, 100⟩⟩,
         ⟨"y", "Dusk", "https://x/2.jpg", "u1", "Ada", "", some ⟨5, 900⟩⟩] ∧
    compareNewestFirst
        ⟨"x", "Dawn", "https://x/1.jpg", "u1", "Ada", "", some ⟨5, 100⟩⟩
        ⟨"y", "Dusk", "https://x/2.jpg", "u1", "Ada", "", some ⟨5, 900⟩⟩ = 0 ∧
    createdInstant ⟨"x", "Dawn", "https://x/1.jpg", "u1", "Ada", "", some ⟨5, 100⟩⟩
      < createdInstant ⟨"y", "Dusk", "https://x/2.jpg", "u1", "Ada", "", some ⟨5, 900⟩⟩ ∧
    ¬ (onSnapshotNext
        [⟨"x", ⟨"Dawn", "https://x/1.jpg", "u1", "Ada", "", some ⟨5, 100⟩⟩⟩,
         ⟨"y", ⟨"Dusk", "https://x/2.jpg", "u1", "Ada", "", some ⟨5, 900⟩⟩⟩]
        AppState.initial).pins.Chain'
      (fun a b => createdInstant b ≤ createdInstant a) := by
  have hp : (onSnapshotNext
        [⟨"x", ⟨"Dawn", "https://x/1.jpg", "u1", "Ada", "", some ⟨5, 100⟩⟩⟩,
         ⟨"y", ⟨"Dusk", "https://x/2.jpg", "u1", "Ada", "", some ⟨5, 900⟩⟩⟩]
        AppState.initial).pins
      = [⟨"x", "Dawn", "https://x/1.jpg", "u1", "Ada", "", some ⟨5, 100⟩⟩,
         ⟨"y", "Dusk", "https://x/2.jpg", "u1", "Ada", "", some ⟨5, 900⟩⟩] := by decide
  refine ⟨hp, by decide, by decide, ?_⟩
  intro h
  rw [hp, List.chain'_pair] at h
  exact absurd h (by decide)

/-- C9: the sort is stable: two pins of a snapshot with the same creation
timestamp (both missing included), or more generally the same creation seconds,
of which `a` is delivered before `b`, appear with `a` before `b` in the list
stored by the snapshot handler. -/
theorem feed_sort_stable (docs : List Doc) (s : AppState) (a b : Pin)
    (heq : a.createdAt = b.createdAt ∨ createdSeconds a = createdSeconds b)
    (hab : List.Sublist [a, b] (docs.map Doc.toPin)) :
    List.Sublist [a, b] (onSnapshotNext docs s).pins := by
  have hsec : createdSeconds a = createdSeconds b := by
    rcases heq with h | h
    · unfold createdSeconds
      rw [h]
    · exact h
  have hr : compareNewestFirst a b ≤ 0 := by
    rw [compareNewestFirst_nonpos_iff]
    omega
  exact List.pair_sublist_insertionSort hr hab

/-- C9, evaluated: of three documents delivered in the order `p1` (no
timestamp), `p2` (5 s), `p3` (no timestamp), the stored list is `p2, p1, p3`:
`p1` stays before `p3`. -/
theorem feed_sort_stable_witness :
    (onSnapshotNext
        [⟨"p1", ⟨"Sunset", "https://x/1.jpg", "u1", "Ada", "", none⟩⟩,
         ⟨"p2", ⟨"Harbour", "https://x/2.jpg", "u1", "Ada", "", some ⟨5, 0⟩⟩⟩,
         ⟨"p3", ⟨"Forest", "https://x/3.jpg", "u2", "Bob", "", none⟩⟩]
        AppState.initial).pins
      = [⟨"p2", "Harbour", "https://x/2.jpg", "u1", "Ada", "", some ⟨5, 0⟩⟩,
         ⟨"p1", "Sunset", "https://x/1.jpg", "u1", "Ada", "", none⟩,
         ⟨"p3", "Forest", "https://x/3.jpg", "u2", "Bob", "", none⟩] ∧
    List.Sublist
      [(⟨"p1", "Sunset", "https://x/1.jpg", "u1", "Ada", "", none⟩ : Pin),
       ⟨"p3", "Forest", "https://x/3.jpg", "u2", "Bob", "", none⟩]
      (onSnapshotNext
        [⟨"p1", ⟨"Sunset", "https://x/1.jpg", "u1", "Ada", "", none⟩⟩,
         ⟨"p2", ⟨"Harbour", "https://x/2.jpg", "u1", "Ada", "", some ⟨5, 0⟩⟩⟩,
         ⟨"p3", ⟨"Forest", "https://x/3.jpg", "u2", "Bob", "", none⟩⟩]
        AppState.initial).pins :=
  ⟨by decide,
   feed_sort_stable _ AppState.initial _ _ (Or.inl rfl)
    (List.Sublist.cons₂ _ (List.Sublist.cons _ (List.Sublist.cons₂ _ List.Sublist.slnil)))⟩

/-! ## Theorems: the notification cell -/

/-- Running the due callbacks clears the cell when there is at least one, and
does nothing otherwise. -/
theorem foldl_timerCallback (due : List Nat) (s : AppState) :
    due.foldl (fun acc _ => timerCallback acc) s
      = if due = [] then s else timerCallback s := by
  induction due generalizing s with
  | nil => rfl
  | cons d rest ih =>
    rw [List.foldl_cons, ih]
    by_cases hr : rest = [] <;> simp [hr, timerCallback]

/-- The clock and the pending deadlines after a wait. -/
theorem advance_now_timers (ms : Nat) (s : AppState) :
    (advance ms s).now = s.now + ms ∧
    (advance ms s).timers = s.timers.filter (fun d => decide (s.now + ms < d)) := by
  simp [advance]

/-- The cell after a wait: unchanged when no callback was due, empty otherwise. -/
theorem advance_notification (ms : Nat) (s : AppState) :
    (advance ms s).notification
      = if s.timers.filter (fun d => decide (d ≤ s.now + ms)) = [] then s.notification
        else none := by
  simp only [advance, foldl_timerCallback]
  split <;> simp [timerCallback]

/-- The invariant holds on mount. -/
theorem NotifyInv_initial : NotifyInv AppState.initial := by
  simp [NotifyInv, AppState.initial]

/-- Every event keeps the invariant. -/
theorem NotifyInv_apply (e : NotifyEvent) (s : AppState) (h : NotifyInv s) :
    NotifyInv (e.apply s) := by
  obtain ⟨h1, h2⟩ := h
  cases e with
  | notify m k =>
    refine ⟨fun _ => by simp [NotifyEvent.apply, showNotification], ?_⟩
    intro d hd
    simp only [NotifyEvent.apply, showNotification, List.mem_append, List.mem_singleton] at hd ⊢
    rcases hd with hd | hd
    · exact h2 d hd
    · simp only [dismissDelay] at hd ⊢
      omega
  | close =>
    refine ⟨fun hne => ?_, fun d hd => h2 d hd⟩
    simp [NotifyEvent.apply, closeNotification] at hne
  | wait ms =>
    have hnt := advance_now_timers ms s
    have hn := advance_notification ms s
    simp only [NotifyEvent.apply]
    refine ⟨fun hne => ?_, ?_⟩
    · rw [hn] at hne
      by_cases hdue : s.timers.filter (fun d => decide (d ≤ s.now + ms)) = []
      · rw [if_pos hdue] at hne
        have hk : s.timers.filter (fun d => decide (s.now + ms < d)) = s.timers := by
          rw [List.filter_eq_self]
          intro d hd
          have hnd : d ∉ s.timers.filter (fun d => decide (d ≤ s.now + ms)) := by
            rw [hdue]
            exact List.not_mem_nil d
          simp only [List.mem_filter, decide_eq_true_eq, not_and] at hnd
          have := hnd hd
          simp only [decide_eq_true_eq]
          omega
        rw [hnt.2, hk]
        exact h1 hne
      · rw [if_neg hdue] at hne
        exact absurd rfl hne
    · intro d hd
      rw [hnt.2] at hd
      rw [hnt.1]
      have hm := List.mem_filter.mp hd
      have hlt : s.now + ms < d := by simpa using hm.2
      have := h2 d hm.1
      omega

/-- Every history keeps the invariant. -/
theorem NotifyInv_runEvents (es : List NotifyEvent) (s : AppState) (h : NotifyInv s) :
    NotifyInv (runEvents es s) := by
  induction es generalizing s with
  | nil => exact h
  | cons e rest ih => exact ih (e.apply s) (NotifyInv_apply e s h)

/-- Running a concatenation is running its parts in turn. -/
theorem runEvents_append (es1 es2 : List NotifyEvent) (s : AppState) :
    runEvents (es1 ++ es2) s = runEvents es2 (runEvents es1 s) := by
  simp [runEvents]

/-- A stretch of events without `showNotification` moves the clock by the time
elapsed and schedules nothing. -/
theorem runEvents_quiet (es : List NotifyEvent) (s : AppState)
    (hq : ∀ e ∈ es, e.isNotify = false) :
    (runEvents es s).now = s.now + elapsed es ∧
    ∀ d ∈ (runEvents es s).timers, d ∈ s.timers := by
  induction es generalizing s with
  | nil => exact ⟨rfl, fun d hd => hd⟩
  | cons e rest ih =>
    have hrest : ∀ e ∈ rest, e.isNotify = false := fun x hx => hq x (List.mem_cons_of_mem _ hx)
    have he := hq e (List.mem_cons_self _ _)
    have ih2 := ih (e.apply s) hrest
    have hrun : runEvents (e :: rest) s = runEvents rest (e.apply s) := rfl
    rw [hrun, ih2.1]
    cases e with
    | notify m k => simp [NotifyEvent.isNotify] at he
    | close =>
      refine ⟨by simp [NotifyEvent.apply, closeNotification, elapsed], ?_⟩
      intro d hd
      exact ih2.2 d hd
    | wait ms =>
      have hnt := advance_now_timers ms s
      refine ⟨?_, ?_⟩
      · simp only [NotifyEvent.apply, elapsed, hnt.1]
        omega
      · intro d hd
        have hd2 := ih2.2 d hd
        simp only [NotifyEvent.apply, hnt.2] at hd2
        exact (List.mem_filter.mp hd2).1

/-- C10: the notification cell holds at most one toast, the latest: (1) right
after any call `showNotification m2 k2` the cell is exactly that toast; (2) when
it follows a call `showNotification m1 k1` by less than `dismissDelay`, the
callback of the first call is still pending and the cell is the second toast
alone; (3) from mount, after any history, once a stretch without calls has
lasted `dismissDelay` or more, the cell is empty and no callback is pending. -/
theorem showNotification_single_slot (s : AppState) (m1 k1 m2 k2 : String) (dt : Nat)
    (history quiet : List NotifyEvent)
    (hdt : dt < dismissDelay)
    (hq : ∀ e ∈ quiet, e.isNotify = false)
    (hlong : dismissDelay ≤ elapsed quiet) :
    (showNotification m2 k2 s).notification = some ⟨m2, k2⟩ ∧
    (s.now + dismissDelay) ∈ (advance dt (showNotification m1 k1 s)).timers ∧
    (showNotification m2 k2 (advance dt (showNotification m1 k1 s))).notification
      = some ⟨m2, k2⟩ ∧
    (runEvents (history ++ quiet) AppState.initial).notification = none ∧
    (runEvents (history ++ quiet) AppState.initial).timers = [] := by
  refine ⟨rfl, ?_, rfl, ?_⟩
  · rw [(advance_now_timers dt _).2]
    simp only [showNotification, List.mem_filter, List.mem_append, List.mem_singleton,
      decide_eq_true_eq]
    exact ⟨Or.inr trivial, by omega⟩
  · have hinv1 := NotifyInv_runEvents history AppState.initial NotifyInv_initial
    have hinv2 := NotifyInv_runEvents quiet _ hinv1
    have hqr := runEvents_quiet quiet (runEvents history AppState.initial) hq
    rw [runEvents_append]
    have htim : (runEvents quiet (runEvents history AppState.initial)).timers = [] := by
      apply List.eq_nil_iff_forall_not_mem.mpr
      intro d hd
      have h1 := (hinv2.2 d hd).1
      have h2 := (hinv1.2 d (hqr.2 d hd)).2
      rw [hqr.1] at h1
      omega
    refine ⟨?_, htim⟩
    by_contra hne
    exact hinv2.1 hne htim

/-- C10, evaluated: a success toast, one second later an error toast, then three
seconds of silence.  After the second call the cell is the error toast; after
the silence it is empty. -/
theorem showNotification_single_slot_witness :
    (1000 < dismissDelay) ∧
    (showNotification "b" "error"
        (advance 1000 (showNotification "a" "success" AppState.initial))).notification
      = some ⟨"b", "error"⟩ ∧
    (runEvents
        ([NotifyEvent.notify "a" "success", NotifyEvent.wait 1000,
          NotifyEvent.notify "b" "error"] ++ [NotifyEvent.wait 3000])
        AppState.initial).notification = none :=
  have hdt : 1000 < dismissDelay := by decide
  have t := showNotification_single_slot AppState.initial "a" "success" "b" "error" 1000
    [NotifyEvent.notify "a" "success", NotifyEvent.wait 1000, NotifyEvent.notify "b" "error"]
    [NotifyEvent.wait 3000] hdt (by decide) (by decide)
  ⟨hdt, t.2.2.1, t.2.2.2.1⟩

/-! ## Theorems: dismissal timing -/

/-- A wait during which no callback falls due only moves the clock. -/
theorem advance_of_no_due (ms : Nat) (s : AppState)
    (h : ∀ d ∈ s.timers, s.now + ms < d) :
    advance ms s = { s with now := s.now + ms } := by
  have hdue : s.timers.filter (fun d => decide (d ≤ s.now + ms)) = [] := by
    rw [List.filter_eq_nil_iff]
    intro d hd
    have := h d hd
    simp only [decide_eq_true_eq]
    omega
  have hkeep : s.timers.filter (fun d => decide (s.now + ms < d)) = s.timers := by
    rw [List.filter_eq_self]
    intro d hd
    simpa using h d hd
  simp only [advance, hdue, hkeep, List.foldl_nil]

/-- A stretch of waits that ends before every pending deadline only moves the
clock. -/
theorem runEvents_waits_before_deadline (ws : List NotifyEvent) (s : AppState)
    (hw : ∀ e ∈ ws, e.isWait = true)
    (hd : ∀ d ∈ s.timers, s.now + elapsed ws < d) :
    runEvents ws s = { s with now := s.now + elapsed ws } := by
  induction ws generalizing s with
  | nil => rfl
  | cons e rest ih =>
    have hrest : ∀ e ∈ rest, e.isWait = true := fun x hx => hw x (List.mem_cons_of_mem _ hx)
    have he := hw e (List.mem_cons_self _ _)
    have hrun : runEvents (e :: rest) s = runEvents rest (e.apply s) := rfl
    cases e with
    | notify m k => simp [NotifyEvent.isWait] at he
    | close => simp [NotifyEvent.isWait] at he
    | wait ms =>
      have hd1 : ∀ d ∈ s.timers, s.now + ms < d := by
        intro d hm
        have := hd d hm
        simp only [elapsed] at this
        omega
      have hadv := advance_of_no_due ms s hd1
      rw [hrun]
      simp only [NotifyEvent.apply, hadv]
      rw [ih _ hrest]
      · simp only [elapsed, Nat.add_assoc]
      · intro d hm
        have := hd d hm
        simp only [elapsed] at this
        show s.now + ms + elapsed rest < d
        omega

/-- Without a call of `showNotification` an empty cell stays empty. -/
theorem runEvents_quiet_none (es : List NotifyEvent) (s : AppState)
    (hq : ∀ e ∈ es, e.isNotify = false) (hn : s.notification = none) :
    (runEvents es s).notification = none := by
  induction es generalizing s with
  | nil => exact hn
  | cons e rest ih =>
    have hrest : ∀ e ∈ rest, e.isNotify = false := fun x hx => hq x (List.mem_cons_of_mem _ hx)
    have he := hq e (List.mem_cons_self _ _)
    have hrun : runEvents (e :: rest) s = runEvents rest (e.apply s) := rfl
    rw [hrun]
    apply ih _ hrest
    cases e with
    | notify m k => simp [NotifyEvent.isNotify] at he
    | close => rfl
    | wait ms =>
      simp only [NotifyEvent.apply, advance_notification, hn]
      split <;> rfl

/-- Without a call of `showNotification`, once a pending deadline is reached the
cell is empty. -/
theorem runEvents_quiet_deadline (es : List NotifyEvent) (s : AppState) (d : Nat)
    (hq : ∀ e ∈ es, e.isNotify = false) (hd : d ∈ s.timers) (hlt : s.now < d)
    (hle : d ≤ s.now + elapsed es) :
    (runEvents es s).notification = none := by
  induction es generalizing s with
  | nil =>
    simp only [elapsed] at hle
    omega
  | cons e rest ih =>
    have hrest : ∀ e ∈ rest, e.isNotify = false := fun x hx => hq x (List.mem_cons_of_mem _ hx)
    have he := hq e (List.mem_cons_self _ _)
    have hrun : runEvents (e :: rest) s = runEvents rest (e.apply s) := rfl
    rw [hrun]
    cases e with
    | notify m k => simp [NotifyEvent.isNotify] at he
    | close =>
      exact runEvents_quiet_none rest _ hrest rfl
    | wait ms =>
      simp only [elapsed] at hle
      by_cases hdue : d ≤ s.now + ms
      · apply runEvents_quiet_none rest _ hrest
        simp only [NotifyEvent.apply, advance_notification]
        have hne : s.timers.filter (fun d => decide (d ≤ s.now + ms)) ≠ [] := by
          intro hnil
          have hmem : d ∈ s.timers.filter (fun d => decide (d ≤ s.now + ms)) :=
            List.mem_filter.mpr ⟨hd, by simpa using hdue⟩
          rw [hnil] at hmem
          exact List.not_mem_nil d hmem
        rw [if_neg hne]
      · have hnt := advance_now_timers ms s
        apply ih (NotifyEvent.apply (NotifyEvent.wait ms) s) hrest
        · simp only [NotifyEvent.apply, hnt.2]
          exact List.mem_filter.mpr ⟨hd, by simp only [decide_eq_true_eq]; omega⟩
        · simp only [NotifyEvent.apply, hnt.1]
          omega
        · simp only [NotifyEvent.apply, hnt.1]
          omega

/-- C11: the code does not meet the claim.  No callback is cancelled, neither by
the close action nor by a later call, and the callback of an earlier toast
empties the cell of a later one.  Toast "a" at 0 and toast "b" at 1000: at 3000
the cell is empty, 2000 after "b" was shown.  Toast "a" at 0, closed at 1000
(its callback, deadline 3000, stays pending), toast "b" at 2000: at 3000 the
cell is empty, 1000 after "b" was shown.  In both runs "b" was neither closed
nor replaced, so a toast does not always stay for `dismissDelay`. -/
theorem notification_stale_timer_hides_later_toast :
    (runEvents
        [NotifyEvent.notify "a" "success", NotifyEvent.wait 1000,
         NotifyEvent.notify "b" "error"]
        AppState.initial).notification = some ⟨"b", "error"⟩ ∧
    (runEvents
        [NotifyEvent.notify "a" "success", NotifyEvent.wait 1000,
         NotifyEvent.notify "b" "error", NotifyEvent.wait 2000]
        AppState.initial).notification = none ∧
    (runEvents
        [NotifyEvent.notify "a" "success", NotifyEvent.wait 1000,
         NotifyEvent.notify "b" "error", NotifyEvent.wait 2000]
        AppState.initial).now = 3000 ∧
    (closeNotification
        (advance 1000 (showNotification "a" "success" AppState.initial))).timers = [3000] ∧
    (runEvents
        [NotifyEvent.notify "a" "success", NotifyEvent.wait 1000, NotifyEvent.close,
         NotifyEvent.wait 1000, NotifyEvent.notify "b" "error"]
        AppState.initial).notification = some ⟨"b", "error"⟩ ∧
    (runEvents
        [NotifyEvent.notify "a" "success", NotifyEvent.wait 1000, NotifyEvent.close,
         NotifyEvent.wait 1000, NotifyEvent.notify "b" "error"]
        AppState.initial).now = 2000 ∧
    (runEvents
        [NotifyEvent.notify "a" "success", NotifyEvent.wait 1000, NotifyEvent.close,
         NotifyEvent.wait 1000, NotifyEvent.notify "b" "error", NotifyEvent.wait 1000]
        AppState.initial).notification = none ∧
    (runEvents
        [NotifyEvent.notify "a" "success", NotifyEvent.wait 1000, NotifyEvent.close,
         NotifyEvent.wait 1000, NotifyEvent.notify "b" "error", NotifyEvent.wait 1000]
        AppState.initial).now = 3000 ∧
    ¬ (∀ (history ws : List NotifyEvent) (m k : String),
        (∀ e ∈ ws, e.isWait = true) → elapsed ws < dismissDelay →
        (runEvents (history ++ [NotifyEvent.notify m k] ++ ws) AppState.initial).notification
          = some ⟨m, k⟩) := by
  refine ⟨by decide, by decide, by decide, by decide, by decide, by decide, by decide,
    by decide, ?_⟩
  intro hall
  have h := hall
    [NotifyEvent.notify "a" "success", NotifyEvent.wait 1000]
    [NotifyEvent.wait 2000] "b" "error" (by decide) (by decide)
  revert h
  decide

/-- What the timers do guarantee: a call of `showNotification` adds one deadline,
`dismissDelay` after the call, to those pending, and the close action empties
the cell and changes no deadline.  A toast issued in any state stays in the
cell throughout a stretch of waits shorter than `dismissDelay` during which no
earlier deadline is reached; and once a stretch without calls has lasted
`dismissDelay`, it is gone. -/
theorem notification_visible_until_deadline (s : AppState) (m k : String)
    (ws quiet : List NotifyEvent)
    (hw : ∀ e ∈ ws, e.isWait = true)
    (hshort : elapsed ws < dismissDelay)
    (hclear : ∀ d ∈ s.timers, s.now + elapsed ws < d)
    (hq : ∀ e ∈ quiet, e.isNotify = false)
    (hlong : dismissDelay ≤ elapsed quiet) :
    (showNotification m k s).timers = s.timers ++ [s.now + dismissDelay] ∧
    (closeNotification s).notification = none ∧
    (closeNotification s).timers = s.timers ∧
    (runEvents ws (showNotification m k s)).notification = some ⟨m, k⟩ ∧
    (runEvents ws (showNotification m k s)).now = s.now + elapsed ws ∧
    (runEvents quiet (showNotification m k s)).notification = none := by
  have hd : ∀ d ∈ (showNotification m k s).timers,
      (showNotification m k s).now + elapsed ws < d := by
    intro d hm
    simp only [showNotification, List.mem_append, List.mem_singleton] at hm ⊢
    rcases hm with hm | hm
    · exact hclear d hm
    · omega
  have hrun := runEvents_waits_before_deadline ws (showNotification m k s) hw hd
  refine ⟨rfl, rfl, rfl, ?_, ?_, ?_⟩
  · rw [hrun]
    rfl
  · rw [hrun]
    rfl
  · apply runEvents_quiet_deadline quiet (showNotification m k s) (s.now + dismissDelay) hq
    · simp [showNotification]
    · simp only [showNotification, dismissDelay]
      omega
    · exact Nat.add_le_add_left hlong _

/-- The guarantee evaluated: toast "a" at 0; toast "b" at 500, while the callback
of "a" (deadline 3000) is pending.  After 2000 more (time 2500) "b" is still in
the cell; after 3000 without calls it is gone. -/
theorem notification_visible_until_deadline_witness :
    (runEvents [NotifyEvent.wait 1500, NotifyEvent.wait 500]
        (showNotification "b" "error"
          (advance 500 (showNotification "a" "success" AppState.initial)))).notification
      = some ⟨"b", "error"⟩ ∧
    (runEvents [NotifyEvent.wait 1500, NotifyEvent.wait 500]
        (showNotification "b" "error"
          (advance 500 (showNotification "a" "success" AppState.initial)))).now = 2500 ∧
    (runEvents [NotifyEvent.wait 3000]
        (showNotification "b" "error"
          (advance 500 (showNotification "a" "success" AppState.initial)))).notification
      = none :=
  have t := notification_visible_until_deadline
    (advance 500 (showNotification "a" "success" AppState.initial)) "b" "error"
    [NotifyEvent.wait 1500, NotifyEvent.wait 500] [NotifyEvent.wait 3000]
    (by decide) (by decide) (by decide) (by decide) (by decide)
  ⟨t.2.2.2.1, t.2.2.2.2.1, t.2.2.2.2.2⟩

/-! ## Theorems: the session -/

/-- C12: whatever the token and whatever the provider answers to the silent
sign-in (resolved or thrown), `handleInitialAuth` subscribes the observer and
leaves the state cells alone; every notification of the observer with identity
`u` sets `user` to `u` and `loading` to false, which selects the login view when
`u` is absent and the main view otherwise; from mount, where the spinner is
shown, the sequence sign-in attempt then notification with no identity ends on
the login view with `loading` false. -/
theorem session_observer_resolves_loading (initialAuthToken : Option String)
    (signInWithCustomToken : String → SignIn) (signInAnonymously : SignIn)
    (s : Session) (u : Option User) :
    (handleInitialAuth initialAuthToken signInWithCustomToken signInAnonymously
        s).observerAttached = true ∧
    (handleInitialAuth initialAuthToken signInWithCustomToken signInAnonymously s).app
      = s.app ∧
    (authStateChanged u
        (handleInitialAuth initialAuthToken signInWithCustomToken signInAnonymously
          s)).app.user = u ∧
    (authStateChanged u
        (handleInitialAuth initialAuthToken signInWithCustomToken signInAnonymously
          s)).app.loading = false ∧
    selectView (authStateChanged u
        (handleInitialAuth initialAuthToken signInWithCustomToken signInAnonymously s)).app
      = (match u with
         | none => View.login
         | some _ => View.main) ∧
    (authObserver u s).app.user = u ∧
    (authObserver u s).app.loading = false ∧
    selectView (authObserver u s).app
      = (match u with
         | none => View.login
         | some _ => View.main) ∧
    selectView Session.initial.app = View.loading ∧
    (authStateChanged none
        (handleInitialAuth initialAuthToken signInWithCustomToken signInAnonymously
          Session.initial)).app.user = none ∧
    (authStateChanged none
        (handleInitialAuth initialAuthToken signInWithCustomToken signInAnonymously
          Session.initial)).app.loading = false ∧
    selectView (authStateChanged none
        (handleInitialAuth initialAuthToken signInWithCustomToken signInAnonymously
          Session.initial)).app = View.login := by
  have hatt : ∀ s0 : Session,
      (handleInitialAuth initialAuthToken signInWithCustomToken signInAnonymously
        s0).observerAttached = true := fun _ => rfl
  have happ : ∀ s0 : Session,
      (handleInitialAuth initialAuthToken signInWithCustomToken signInAnonymously s0).app
        = s0.app := by
    intro s0
    unfold handleInitialAuth
    simp only
    split <;> rfl
  have hfire : ∀ (s0 : Session) (v : Option User),
      authStateChanged v
          (handleInitialAuth initialAuthToken signInWithCustomToken signInAnonymously s0)
        = authObserver v
          (handleInitialAuth initialAuthToken signInWithCustomToken signInAnonymously s0) := by
    intro s0 v
    unfold authStateChanged
    rw [if_pos (hatt s0)]
  have hview : ∀ (s0 : Session) (v : Option User),
      selectView (authObserver v s0).app
        = (match v with
           | none => View.login
           | some _ => View.main) := by
    intro s0 v
    cases v <;> rfl
  refine ⟨hatt s, happ s, ?_, ?_, ?_, rfl, rfl, hview s u, rfl, ?_, ?_, ?_⟩
  · rw [hfire]
    rfl
  · rw [hfire]
    rfl
  · rw [hfire]
    exact hview _ u
  · rw [hfire]
    rfl
  · rw [hfire]
    rfl
  · rw [hfire]
    exact hview _ none

/-- C12, evaluated: no token, the anonymous sign-in throws, then the observer
reports no identity: `user` is absent, `loading` is false, the login view is
selected, and the failure was logged. -/
theorem session_observer_resolves_loading_witness :
    (authStateChanged none
        (handleInitialAuth none rejectingTokenSignIn rejectingAnonymousSignIn
          Session.initial)).app.user = none ∧
    (authStateChanged none
        (handleInitialAuth none rejectingTokenSignIn rejectingAnonymousSignIn
          Session.initial)).app.loading = false ∧
    selectView (authStateChanged none
        (handleInitialAuth none rejectingTokenSignIn rejectingAnonymousSignIn
          Session.initial)).app = View.login ∧
    (handleInitialAuth none rejectingTokenSignIn rejectingAnonymousSignIn
        Session.initial).console
      = ["Initial authentication failed: auth/operation-not-allowed"] :=
  have t := session_observer_resolves_loading none rejectingTokenSignIn
    rejectingAnonymousSignIn Session.initial none
  ⟨t.2.2.2.2.2.2.2.2.2.1, t.2.2.2.2.2.2.2.2.2.2.1, t.2.2.2.2.2.2.2.2.2.2.2, by decide⟩

end PinApp
